import Mathlib

/-!
Verification of the version-resolution and update-decision core of the
`mgo` utility (files `util.py` and `mgo.py`).

The pure core is shallowly embedded:

* Python dictionaries returned by `parse_version` become the structure
  `VerInfo`; the Python values `None` / `True` / `False` stored in the
  `is_beta` / `is_release_candidate` fields become `Option Bool`, with
  Python truthiness captured by `truthy`.
* `re.search('(\\d+)\\.(\\d+)\\.?(\\d+)?(\\w+)*', s)` is embedded by
  `reSearch`, which scans for the leftmost position at which the pattern
  matches and returns the matched groups.  The character classes `\d` and
  `\w` are modelled at their ASCII meaning (the inputs the program feeds
  them are ASCII release tags).
* Functions that can raise an uncaught Python exception return
  `Except PyError`; `Except.error` models the raised exception.
  Built-in exceptions that the source catches are translated to the
  value the handler produces (together with the line the handler prints).
* I/O producers (`subprocess`, `urllib`) are out of the core: the pure
  selection logic is parameterised by their results (`installed`,
  `releases`), exactly as the spec's §4.4 presents it.
-/

inductive PyError where
  | typeError
  | keyError (key : String)
deriving DecidableEq

instance {ε α : Type} [DecidableEq ε] [DecidableEq α] : DecidableEq (Except ε α) := fun x y =>
  match x, y with
  | Except.error e1, Except.error e2 =>
    if h : e1 = e2 then Decidable.isTrue (congrArg Except.error h)
    else Decidable.isFalse (fun hh => h (Except.error.inj hh))
  | Except.ok a1, Except.ok a2 =>
    if h : a1 = a2 then Decidable.isTrue (congrArg Except.ok h)
    else Decidable.isFalse (fun hh => h (Except.ok.inj hh))
  | Except.error _, Except.ok _ => Decidable.isFalse (fun hh => Except.noConfusion hh)
  | Except.ok _, Except.error _ => Decidable.isFalse (fun hh => Except.noConfusion hh)

/-- Python truthiness of an `Option Bool` field (`None` and `False` are falsy). -/
def truthy : Option Bool → Bool
  | some true => true
  | _ => false

/-- The dictionary built by `parse_version` in `util.py` lines 55-62. -/
structure VerInfo where
  version : String
  major : Nat
  minor : Nat
  patch : Nat
  is_beta : Option Bool
  is_release_candidate : Option Bool
deriving DecidableEq

/-- ASCII reading of the regex class `\d`. -/
def dchar (c : Char) : Bool := 48 ≤ c.toNat && c.toNat ≤ 57

/-- ASCII reading of the regex class `\w` (alphanumeric or underscore). -/
def wchar (c : Char) : Bool :=
  dchar c || (65 ≤ c.toNat && c.toNat ≤ 90) || (97 ≤ c.toNat && c.toNat ≤ 122) || c = '_'

/-- Value of a digit string, as Python `int()` computes it on the matched group. -/
def natOfDigits (l : List Char) : Nat := l.foldl (fun a c => 10 * a + (c.toNat - 48)) 0

/-- Substring containment, as Python `str.find(sub) >= 0` decides it. -/
def containsSub (needle : List Char) : List Char → Bool
  | [] => needle.isEmpty
  | c :: t => needle.isPrefixOf (c :: t) || containsSub needle t

/-- Groups of a successful match of `(\d+)\.(\d+)\.?(\d+)?(\w+)*`:
`g0` is the whole matched text, `g1`-`g4` the four capture groups
(`g3`/`g4` are `none` when the optional group took part in no repetition). -/
structure ReMatch where
  g0 : List Char
  g1 : List Char
  g2 : List Char
  g3 : Option (List Char)
  g4 : Option (List Char)
deriving DecidableEq

/-- Attempt to match `(\d+)\.(\d+)\.?(\d+)?(\w+)*` anchored at the head of `s`.
Greedy/backtracking semantics collapse to: the major group is the maximal
digit run (a shorter run would be followed by a digit, not by the required
dot), the minor group likewise, the optional dot is taken when present, the
patch group is the maximal digit run after it, and the trailing `(\w+)*`
consumes the maximal word-character run (captured whole, or `none` if empty). -/
def matchAt (s : List Char) : Option ReMatch :=
  let d1 := s.takeWhile dchar
  let r1 := s.dropWhile dchar
  if d1.isEmpty then none
  else if r1.head? = some '.' then
    let r2 := r1.tail
    let d2 := r2.takeWhile dchar
    let r3 := r2.dropWhile dchar
    if d2.isEmpty then none
    else if r3.head? = some '.' then
      let r4 := r3.tail
      let d3 := r4.takeWhile dchar
      let r5 := r4.dropWhile dchar
      let suf := r5.takeWhile wchar
      some ⟨d1 ++ '.' :: d2 ++ '.' :: d3 ++ suf, d1, d2,
            if d3.isEmpty then none else some d3,
            if suf.isEmpty then none else some suf⟩
    else
      let suf := r3.takeWhile wchar
      some ⟨d1 ++ '.' :: d2 ++ suf, d1, d2, none,
            if suf.isEmpty then none else some suf⟩
  else none

/-- `re.search`: try the pattern at every position, leftmost match wins. -/
def reSearch : List Char → Option ReMatch
  | [] => none
  | c :: rest =>
    match matchAt (c :: rest) with
    | some m => some m
    | none => reSearch rest

/-- `parse_version` (`util.py` lines 43-62; `mgo.py` lines 47-66 is textually
identical).  Returns `none` when the regex does not match anywhere —
Python returns `None` by falling off the function. -/
def parse_version (ver : String) : Option VerInfo :=
  match reSearch ver.data with
  | none => none
  | some m =>
    some ⟨String.mk m.g0,
          natOfDigits m.g1,
          natOfDigits m.g2,
          (match m.g3 with | some d => natOfDigits d | none => 0),
          (match m.g4 with | some s4 => some (containsSub ('b' :: 'e' :: 't' :: 'a' :: []) s4) | none => none),
          (match m.g4 with | some s4 => some (containsSub ('r' :: 'c' :: []) s4) | none => none)⟩

/-- `compare_versions` of `util.py` lines 67-76: weighted numeric difference,
then `result -= 1` for a beta first argument, `-= 2` for a release-candidate
first argument, mirrored `+= 1` / `+= 2` on the second argument. -/
def compare_versions (v1 v2 : VerInfo) : Int :=
  ((((0 + 100000 * ((v1.major : Int) - (v2.major : Int))
      + 10 * ((v1.minor : Int) - (v2.minor : Int)))
      + ((v1.patch : Int) - (v2.patch : Int)))
      + (if truthy v1.is_beta then -1 else 0)
      + (if truthy v1.is_release_candidate then -2 else 0))
      + (if truthy v2.is_beta then 1 else 0))
      + (if truthy v2.is_release_candidate then 2 else 0)

namespace mgo

/-- `compare_versions` of `mgo.py` lines 71-80: identical weighted numeric
part, but the channel adjustments carry the opposite signs
(`+= 1`/`+= 2` on the first argument, `-= 1`/`-= 2` on the second). -/
def compare_versions (v1 v2 : VerInfo) : Int :=
  ((((0 + 100000 * ((v1.major : Int) - (v2.major : Int))
      + 10 * ((v1.minor : Int) - (v2.minor : Int)))
      + ((v1.patch : Int) - (v2.patch : Int)))
      + (if truthy v1.is_beta then 1 else 0)
      + (if truthy v1.is_release_candidate then 2 else 0))
      + (if truthy v2.is_beta then -1 else 0))
      + (if truthy v2.is_release_candidate then -2 else 0)

end mgo

/-- Candidate is a beta or release candidate (the `is_preview` test of
`should_update`, `util.py` line 86). -/
def isPreview (v : VerInfo) : Bool := truthy v.is_beta || truthy v.is_release_candidate

/-- `should_update` (`util.py` lines 81-91).  When either argument fails to
parse, `parse_version` returns `None` and the subscript inside
`compare_versions` raises an uncaught `TypeError`, modelled as
`Except.error PyError.typeError`. -/
def should_update (ver1 ver2 : String) (allow_preview : Bool) : Except PyError Bool :=
  match parse_version ver1, parse_version ver2 with
  | some i1, some i2 =>
    if compare_versions i1 i2 < 0 then
      if isPreview i2 then Except.ok allow_preview else Except.ok true
    else Except.ok false
  | _, _ => Except.error PyError.typeError

/-- Loop body of `get_go_release` (`util.py` lines 34-40), already applied to
the reversed release list.  An unparseable entry makes the subscript
`ver_info['is_beta']` raise `TypeError`. -/
def get_go_release_scan (allow_preview : Bool) : List String → Except PyError (Option String)
  | [] => Except.ok none
  | v :: rest =>
    match parse_version v with
    | none => Except.error PyError.typeError
    | some info =>
      if isPreview info then
        if allow_preview then Except.ok (some v) else get_go_release_scan allow_preview rest
      else Except.ok (some v)

/-- `get_go_release` (`util.py` lines 31-40) with the release list obtained
from the network passed as a parameter.  `if releases:` is false on the
empty list, and the loop walks `releases[::-1]`. -/
def get_go_release (releases : List String) (allow_preview : Bool) : Except PyError (Option String) :=
  if releases.isEmpty then Except.ok none
  else get_go_release_scan allow_preview releases.reverse

/-- Loop of `get_update_version` (`util.py` lines 102-104) over the reversed
candidate slice; a `TypeError` raised by `should_update` is not caught by
the surrounding handlers. -/
def get_update_scan (installed : String) (allow_preview : Bool) :
    List String → Except PyError (Option String)
  | [] => Except.ok none
  | c :: rest =>
    match should_update installed c allow_preview with
    | Except.error e => Except.error e
    | Except.ok true => Except.ok (some c)
    | Except.ok false => get_update_scan installed allow_preview rest

/-- `get_update_version` (`util.py` lines 93-110) with the two I/O inputs
(installed version string, fetched release list) as parameters.  The result
pairs the returned value with the lines printed by the exception handlers:
`releases.index` raising `ValueError` when the installed tag is absent is
caught and prints `Error interpreting go version scheme`, after which the
function returns `None`. -/
def get_update_version (installed : String) (releases : List String) (allow_preview : Bool) :
    Except PyError (Option String × List String) :=
  match releases.findIdx? (fun r => r == installed) with
  | none => Except.ok (none, ["Error interpreting go version scheme"])
  | some index =>
    match get_update_scan installed allow_preview ((releases.drop (index + 1)).reverse) with
    | Except.error e => Except.error e
    | Except.ok r => Except.ok (r, [])

/-- `archMap` of `util.py` lines 151-161, as an association list. -/
def archMap : List (String × String) :=
  [("AMD64", "amd64"), ("x86_64", "amd64"), ("i386", "386"), ("i686", "386"),
   ("386", "386"), ("aarch64", "arm64"), ("arm64", "arm64"), ("arm", "armv6l"),
   ("armv6l", "armv6l")]

/-- `extensionMap` of `util.py` lines 162-166. -/
def extensionMap : List (String × String) :=
  [("linux", ".tar.gz"), ("windows", ".zip"), ("darwin", ".pkg")]

/-- Python `str.lower()` at its ASCII meaning (the strings `platform.system()`
produces here are ASCII). -/
def pyLower (s : String) : String :=
  String.mk (s.data.map (fun c =>
    if 65 ≤ c.toNat && c.toNat ≤ 90 then Char.ofNat (c.toNat + 32) else c))

/-- Python `dict[key]`: the value, or a raised `KeyError`. -/
def dictGet (m : List (String × String)) (k : String) : Except PyError String :=
  match m.lookup k with
  | some v => Except.ok v
  | none => Except.error (PyError.keyError k)

/-- `build_release_file_name` (`util.py` lines 112-118) with the two platform
probes (`platform.system()`, `platform.machine()`) passed as parameters.
The arch table is subscripted first, then the extension table; a missing key
raises `KeyError`. -/
def build_release_file_name (system_raw machine ver : String) : Except PyError String :=
  match dictGet archMap machine with
  | Except.error e => Except.error e
  | Except.ok arch =>
    match dictGet extensionMap (pyLower system_raw) with
    | Except.error e => Except.error e
    | Except.ok extension =>
      Except.ok ((if List.isPrefixOf ('g' :: 'o' :: []) ver.data then ver else "go" ++ ver)
        ++ "." ++ pyLower system_raw ++ "-" ++ arch ++ extension)

/-- The spec's release channel (§3), read off the flag pair stored by
`parse_version`: a truthy `is_beta` is channel beta, a truthy
`is_release_candidate` is releaseCandidate, `None` flags mean no suffix was
present (stable), and `False` flags mean an unrecognised suffix (unknown). -/
inductive Channel where
  | stable
  | beta
  | releaseCandidate
  | unknown
deriving DecidableEq

/-- Channel classification of a parsed record, per the spec's §3 data model. -/
def channelOf (v : VerInfo) : Channel :=
  if truthy v.is_beta then Channel.beta
  else if truthy v.is_release_candidate then Channel.releaseCandidate
  else if v.is_beta = none then Channel.stable
  else Channel.unknown

/-- The optional third dot-group of a tag, as the characters it contributes
to the raw string. -/
def midOf : Option (List Char) → List Char
  | some d3 => '.' :: d3
  | none => []

/-- The patch value `parse_version` derives from the optional third
dot-group (`matches[3] or 0`). -/
def patchOf : Option (List Char) → Nat
  | some d3 => natOfDigits d3
  | none => 0

/-- The weighted numeric part of the comparison (both source variants share it). -/
def numericDiff (v1 v2 : VerInfo) : Int :=
  100000 * ((v1.major : Int) - (v2.major : Int))
    + 10 * ((v1.minor : Int) - (v2.minor : Int))
    + ((v1.patch : Int) - (v2.patch : Int))

/-- The channel adjustment of `util.py`'s `compare_versions`. -/
def chAdj (v1 v2 : VerInfo) : Int :=
  (if truthy v1.is_beta then -1 else 0) + (if truthy v1.is_release_candidate then -2 else 0)
    + (if truthy v2.is_beta then 1 else 0) + (if truthy v2.is_release_candidate then 2 else 0)

lemma compare_eq_numeric_add_chAdj (v1 v2 : VerInfo) :
    compare_versions v1 v2 = numericDiff v1 v2 + chAdj v1 v2 := by
  unfold compare_versions numericDiff chAdj
  ring

lemma mgo_compare_eq_numeric_sub_chAdj (v1 v2 : VerInfo) :
    mgo.compare_versions v1 v2 = numericDiff v1 v2 - chAdj v1 v2 := by
  unfold mgo.compare_versions numericDiff chAdj
  cases hb1 : truthy v1.is_beta <;> cases hr1 : truthy v1.is_release_candidate <;>
    cases hb2 : truthy v2.is_beta <;> cases hr2 : truthy v2.is_release_candidate <;>
    simp <;> ring

lemma chAdj_le_three (v1 v2 : VerInfo) : -3 ≤ chAdj v1 v2 ∧ chAdj v1 v2 ≤ 3 := by
  unfold chAdj
  cases truthy v1.is_beta <;> cases truthy v1.is_release_candidate <;>
    cases truthy v2.is_beta <;> cases truthy v2.is_release_candidate <;>
    simp

/-- C1 (counterexample): with equal majors and `a.minor < b.minor` the claim
demands `compare(a, b) < 0` regardless of the patch values, but a patch
difference of 100 outweighs the minor weight of 10: `compare` on the parsed
records of `1.20.100` and `1.21.0` is positive. -/
theorem C1_counterexample :
    parse_version "1.20.100" = some ⟨"1.20.100", 1, 20, 100, none, none⟩
    ∧ parse_version "1.21.0" = some ⟨"1.21.0", 1, 21, 0, none, none⟩
    ∧ 0 < compare_versions ⟨"1.20.100", 1, 20, 100, none, none⟩ ⟨"1.21.0", 1, 21, 0, none, none⟩ :=
  ⟨by decide, by decide, by decide⟩

/-- C1 (amended): the comparison weights the fields `100000 / 10 / 1` plus a
channel adjustment, so a minor difference dominates only while the opposing
patch-and-channel contribution stays below `10` per unit of minor difference:
with equal majors and `a.minor < b.minor`, `compare(a, b) < 0` holds whenever
`a.patch + chAdj a b < b.patch + 10 * (b.minor - a.minor)`; the claim's
examples `compare(1.21.0, 1.21.1) < 0` and `compare(1.9.0, 1.10.0) < 0` hold. -/
theorem C1_minor_dominates_bounded (a b : VerInfo) (hmaj : a.major = b.major)
    (_hmin : a.minor < b.minor)
    (hbound : (a.patch : Int) + chAdj a b < (b.patch : Int) + 10 * ((b.minor : Int) - (a.minor : Int))) :
    compare_versions a b < 0 := by
  have h := compare_eq_numeric_add_chAdj a b
  unfold numericDiff at h
  rw [hmaj] at h
  omega

/-- C1 (witness): both spec examples, the first through the amended theorem. -/
theorem C1_minor_dominates_bounded_witness :
    parse_version "1.9.0" = some ⟨"1.9.0", 1, 9, 0, none, none⟩
    ∧ parse_version "1.10.0" = some ⟨"1.10.0", 1, 10, 0, none, none⟩
    ∧ compare_versions ⟨"1.9.0", 1, 9, 0, none, none⟩ ⟨"1.10.0", 1, 10, 0, none, none⟩ < 0
    ∧ compare_versions ⟨"1.21.0", 1, 21, 0, none, none⟩ ⟨"1.21.1", 1, 21, 1, none, none⟩ < 0 :=
  ⟨by decide, by decide,
   C1_minor_dominates_bounded _ _ rfl (by decide) (by decide),
   by decide⟩

/-- C2 (counterexample): candidate `1.21.1rc1` is strictly newer than the
installed `1.21.0` by the numeric triple and `allowPreview` is true, so the
claim demands `true`; the code's channel adjustment (+2 for an rc candidate)
turns the comparison positive and `should_update` answers `false`. -/
theorem C2_counterexample :
    parse_version "1.21.0" = some ⟨"1.21.0", 1, 21, 0, none, none⟩
    ∧ parse_version "1.21.1rc1" = some ⟨"1.21.1rc1", 1, 21, 1, some false, some true⟩
    ∧ should_update "1.21.0" "1.21.1rc1" true = Except.ok false :=
  ⟨by decide, by decide, by decide⟩

/-- C2 (amended): for parseable arguments, `should_update` answers true
exactly when the weighted comparison (channel adjustments included) is
negative and, for a beta/releaseCandidate candidate, `allowPreview` holds;
it answers false otherwise (never a downgrade by that same comparison). -/
theorem C2_should_update_eq (v1 v2 : String) (a : Bool) (i1 i2 : VerInfo)
    (h1 : parse_version v1 = some i1) (h2 : parse_version v2 = some i2) :
    should_update v1 v2 a
      = Except.ok (decide (compare_versions i1 i2 < 0) && (!(isPreview i2) || a)) := by
  unfold should_update
  rw [h1, h2]
  by_cases hc : compare_versions i1 i2 < 0 <;>
    cases hp : isPreview i2 <;> cases a <;> simp [hc, hp]

/-- C2 (witness): the spec's preview example, through the amended theorem. -/
theorem C2_should_update_eq_witness :
    should_update "1.21.0" "1.22beta1" true
      = Except.ok (decide (compare_versions ⟨"1.21.0", 1, 21, 0, none, none⟩
            ⟨"1.22beta1", 1, 22, 0, some true, some false⟩ < 0)
          && (!(isPreview ⟨"1.22beta1", 1, 22, 0, some true, some false⟩) || true)) :=
  C2_should_update_eq _ _ _ _ _ (by decide) (by decide)

/-- C4 (counterexample): the channels do flip a numeric difference — the rc
tag `1.21.1rc1` has a strictly greater numeric triple than stable `1.21.0`,
yet compares below it — and at equal triples the implemented tie-break puts
beta above releaseCandidate, not below. -/
theorem C4_counterexample :
    parse_version "1.21.1rc1" = some ⟨"1.21.1rc1", 1, 21, 1, some false, some true⟩
    ∧ parse_version "1.21.0" = some ⟨"1.21.0", 1, 21, 0, none, none⟩
    ∧ compare_versions ⟨"1.21.1rc1", 1, 21, 1, some false, some true⟩ ⟨"1.21.0", 1, 21, 0, none, none⟩ < 0
    ∧ parse_version "1.21.0rc1" = some ⟨"1.21.0rc1", 1, 21, 0, some false, some true⟩
    ∧ parse_version "1.21.0beta1" = some ⟨"1.21.0beta1", 1, 21, 0, some true, some false⟩
    ∧ compare_versions ⟨"1.21.0rc1", 1, 21, 0, some false, some true⟩
        ⟨"1.21.0beta1", 1, 21, 0, some true, some false⟩ < 0 :=
  ⟨by decide, by decide, by decide, by decide, by decide, by decide⟩

/-- C4 (amended): the channel adjustment is bounded by 3 in absolute value,
so the sign of `compare` is fixed by the numeric weighted difference alone
whenever that difference exceeds 3 in absolute value; within the bound the
channels can flip the order, and at equal numeric triples the comparison is
exactly the channel adjustment (stable = unknown-suffixed above beta above
releaseCandidate). -/
theorem C4_channel_bounded (a b : VerInfo) :
    (3 < (numericDiff a b).natAbs → (0 < compare_versions a b ↔ 0 < numericDiff a b))
    ∧ (numericDiff a b = 0 → compare_versions a b = chAdj a b) := by
  have h := compare_eq_numeric_add_chAdj a b
  have hb := chAdj_le_three a b
  constructor
  · intro hgt
    omega
  · intro h0
    omega

/-- C4 (witness): both parts of the amended theorem at concrete records. -/
theorem C4_channel_bounded_witness :
    (0 < compare_versions ⟨"1.10.0", 1, 10, 0, none, none⟩ ⟨"1.9.0", 1, 9, 0, some true, some false⟩
      ↔ 0 < numericDiff ⟨"1.10.0", 1, 10, 0, none, none⟩ ⟨"1.9.0", 1, 9, 0, some true, some false⟩)
    ∧ compare_versions ⟨"1.21.0", 1, 21, 0, some true, some false⟩ ⟨"1.21.0", 1, 21, 0, none, none⟩
      = chAdj ⟨"1.21.0", 1, 21, 0, some true, some false⟩ ⟨"1.21.0", 1, 21, 0, none, none⟩ :=
  ⟨(C4_channel_bounded _ _).1 (by decide), (C4_channel_bounded _ _).2 (by decide)⟩

/-- C7 (counterexample): `parse_version` does yield explicit absence on an
unparseable string, but `should_update` applied to it raises `TypeError`
(the `None` record is subscripted inside `compare_versions`) instead of
returning a boolean or absence. -/
theorem C7_counterexample :
    parse_version "abc" = none
    ∧ should_update "abc" "1.2.3" false = Except.error PyError.typeError :=
  ⟨by decide, by decide⟩

/-- C7 (amended): `parse_version` never raises (it is total into an option),
and `should_update` returns a boolean exactly when both arguments parse;
when either fails to parse it raises `TypeError` rather than returning an
absence value. -/
theorem C7_no_raise_iff (v1 v2 : String) (a : Bool) :
    (∃ b, should_update v1 v2 a = Except.ok b)
      ↔ ((parse_version v1).isSome ∧ (parse_version v2).isSome) := by
  cases h1 : parse_version v1 with
  | none =>
    refine iff_of_false ?_ (by simp)
    rintro ⟨b, hb⟩
    unfold should_update at hb
    rw [h1] at hb
    cases h2 : parse_version v2 <;> rw [h2] at hb <;> exact Except.noConfusion hb
  | some i1 =>
    cases h2 : parse_version v2 with
    | none =>
      refine iff_of_false ?_ (by simp)
      rintro ⟨b, hb⟩
      unfold should_update at hb
      rw [h1, h2] at hb
      exact Except.noConfusion hb
    | some i2 =>
      refine iff_of_true ?_ (by simp)
      unfold should_update
      rw [h1, h2]
      by_cases hc : compare_versions i1 i2 < 0
      · by_cases hp : isPreview i2 = true
        · exact ⟨a, by simp [hc, hp]⟩
        · exact ⟨true, by simp [hc, hp]⟩
      · exact ⟨false, by simp [hc]⟩

/-- C7 (witness): the characterisation at concrete parseable inputs. -/
theorem C7_no_raise_iff_witness :
    (∃ b, should_update "go1.2" "go1.3" false = Except.ok b)
      ↔ ((parse_version "go1.2").isSome ∧ (parse_version "go1.3").isSome) :=
  C7_no_raise_iff _ _ _

/-- C10 (counterexample): the two `compare_versions` variants disagree in
sign — `util.py` counts an rc second argument `+2` (older), `mgo.py` counts
it `-2` (newer) — so on `1.21.0` versus `1.21.0rc1` one is positive and the
other negative. -/
theorem C10_counterexample :
    parse_version "1.21.0" = some ⟨"1.21.0", 1, 21, 0, none, none⟩
    ∧ parse_version "1.21.0rc1" = some ⟨"1.21.0rc1", 1, 21, 0, some false, some true⟩
    ∧ 0 < compare_versions ⟨"1.21.0", 1, 21, 0, none, none⟩ ⟨"1.21.0rc1", 1, 21, 0, some false, some true⟩
    ∧ mgo.compare_versions ⟨"1.21.0", 1, 21, 0, none, none⟩ ⟨"1.21.0rc1", 1, 21, 0, some false, some true⟩ < 0 :=
  ⟨by decide, by decide, by decide, by decide⟩

/-- C10 (amended): the two variants coincide on every pair of records in
which neither side is beta or releaseCandidate (the channel adjustments, the
only difference between the files, then vanish); when a preview flag is
truthy they can disagree even in sign. -/
theorem C10_compare_agree_on_nonpreview (v1 v2 : VerInfo)
    (h1 : isPreview v1 = false) (h2 : isPreview v2 = false) :
    compare_versions v1 v2 = mgo.compare_versions v1 v2 := by
  unfold isPreview at h1 h2
  rw [Bool.or_eq_false_iff] at h1 h2
  obtain ⟨hb1, hr1⟩ := h1
  obtain ⟨hb2, hr2⟩ := h2
  simp [compare_versions, mgo.compare_versions, hb1, hr1, hb2, hr2]

/-- C10 (witness): agreement at concrete stable/unknown-suffixed records. -/
theorem C10_compare_agree_on_nonpreview_witness :
    compare_versions ⟨"1.2.3", 1, 2, 3, none, none⟩ ⟨"1.2.4x", 1, 2, 4, some false, some false⟩
      = mgo.compare_versions ⟨"1.2.3", 1, 2, 3, none, none⟩ ⟨"1.2.4x", 1, 2, 4, some false, some false⟩ :=
  C10_compare_agree_on_nonpreview _ _ (by decide) (by decide)

lemma takeWhile_dropWhile_split {p : Char → Bool} :
    ∀ (d l : List Char), (∀ c ∈ d, p c = true) →
      (∀ c, l.head? = some c → p c = false) →
      (d ++ l).takeWhile p = d ∧ (d ++ l).dropWhile p = l
  | [], l, _, hl => by
    cases l with
    | nil => exact ⟨rfl, rfl⟩
    | cons c t =>
      have hc : p c = false := hl c rfl
      simp [List.takeWhile_cons, List.dropWhile_cons, hc]
  | a :: d, l, hd, hl => by
    have ha : p a = true := hd a (List.mem_cons_self a d)
    have ih := takeWhile_dropWhile_split d l (fun c hc => hd c (List.mem_cons_of_mem a hc)) hl
    simp [List.takeWhile_cons, List.dropWhile_cons, ha, ih.1, ih.2]

lemma takeWhile_of_all {p : Char → Bool} (l : List Char) (h : ∀ c ∈ l, p c = true) :
    l.takeWhile p = l := by
  have hsplit := takeWhile_dropWhile_split l [] h (by simp)
  simpa using hsplit.1

lemma isEmpty_false_of_ne_nil {l : List Char} (h : l ≠ []) : l.isEmpty = false := by
  cases l with
  | nil => exact absurd rfl h
  | cons a t => rfl

lemma reSearch_cons (c : Char) (rest : List Char) :
    reSearch (c :: rest) = match matchAt (c :: rest) with
      | some m => some m
      | none => reSearch rest := rfl

/-- The pattern matches at the start of a well-formed tag remainder
`digits "." digits ["." digits] suffix` and captures exactly its parts. -/
lemma matchAt_shape (d1 d2 suf : List Char) (d3opt : Option (List Char))
    (h1n : d1 ≠ []) (h1d : ∀ c ∈ d1, dchar c = true)
    (h2n : d2 ≠ []) (h2d : ∀ c ∈ d2, dchar c = true)
    (h3 : ∀ d3, d3opt = some d3 → d3 ≠ [] ∧ ∀ c ∈ d3, dchar c = true)
    (hs : ∀ c ∈ suf, wchar c = true)
    (hsd : ∀ c, suf.head? = some c → dchar c = false) :
    matchAt (d1 ++ ('.' :: (d2 ++ (midOf d3opt ++ suf))))
      = some ⟨d1 ++ ('.' :: (d2 ++ (midOf d3opt ++ suf))), d1, d2, d3opt,
              if suf.isEmpty then none else some suf⟩ := by
  have e1 : d1.isEmpty = false := isEmpty_false_of_ne_nil h1n
  have e2 : d2.isEmpty = false := isEmpty_false_of_ne_nil h2n
  have hs1 := takeWhile_dropWhile_split (p := dchar) d1 ('.' :: (d2 ++ (midOf d3opt ++ suf))) h1d
    (by intro c hc; rw [List.head?_cons] at hc; injection hc with h; subst h; decide)
  have hmid : ∀ c, (midOf d3opt ++ suf).head? = some c → dchar c = false := by
    intro c hc
    cases hd3 : d3opt with
    | some d3 =>
      rw [hd3] at hc
      simp only [midOf, List.cons_append, List.head?_cons] at hc
      injection hc with h
      subst h
      decide
    | none =>
      rw [hd3] at hc
      simp only [midOf, List.nil_append] at hc
      exact hsd c hc
  have hs2 := takeWhile_dropWhile_split (p := dchar) d2 (midOf d3opt ++ suf) h2d hmid
  have hsfull : suf.takeWhile wchar = suf := takeWhile_of_all suf hs
  cases d3opt with
  | none =>
    have hnotdot : ¬ (suf.head? = some '.') := by
      intro hdot
      cases suf with
      | nil => exact absurd hdot (by simp)
      | cons c t =>
        rw [List.head?_cons] at hdot
        injection hdot with h
        subst h
        exact absurd (hs '.' (List.mem_cons_self _ _)) (by decide)
    simp only [midOf, List.nil_append] at hs1 hs2 ⊢
    simp only [matchAt]
    rw [hs1.1, hs1.2, e1, if_neg Bool.false_ne_true, List.head?_cons, if_pos rfl,
      List.tail_cons, hs2.1, hs2.2, e2, if_neg Bool.false_ne_true, if_neg hnotdot, hsfull]
    simp [List.cons_append, List.append_assoc]
  | some d3 =>
    obtain ⟨h3n, h3d⟩ := h3 d3 rfl
    have e3 : d3.isEmpty = false := isEmpty_false_of_ne_nil h3n
    have hs3 := takeWhile_dropWhile_split (p := dchar) d3 suf h3d hsd
    simp only [midOf, List.cons_append] at hs1 hs2 ⊢
    simp only [matchAt]
    rw [hs1.1, hs1.2, e1, if_neg Bool.false_ne_true, List.head?_cons, if_pos rfl,
      List.tail_cons, hs2.1, hs2.2, e2, if_neg Bool.false_ne_true, List.head?_cons, if_pos rfl,
      List.tail_cons, hs3.1, hs3.2, e3, if_neg Bool.false_ne_true, hsfull]
    simp [List.cons_append, List.append_assoc]

/-- `re.search` skips a digit-free prefix: the pattern cannot match inside it. -/
lemma reSearch_append_skip (p l : List Char) (hp : ∀ c ∈ p, dchar c = false) :
    reSearch (p ++ l) = reSearch l := by
  induction p with
  | nil => rfl
  | cons a t ih =>
    have ha : dchar a = false := hp a (List.mem_cons_self a t)
    have hma : matchAt (a :: (t ++ l)) = none := by
      have htw : (a :: (t ++ l)).takeWhile dchar = [] := by
        rw [List.takeWhile_cons_of_neg]
        simp [ha]
      simp only [matchAt]
      rw [htw]
      rfl
    have hstep : reSearch ((a :: t) ++ l) = reSearch (t ++ l) := by
      rw [List.cons_append, reSearch_cons, hma]
    exact hstep.trans (ih (fun c hc => hp c (List.mem_cons_of_mem a hc)))

lemma reSearch_of_matchAt (s : List Char) (m : ReMatch) (hne : s ≠ [])
    (hm : matchAt s = some m) : reSearch s = some m := by
  cases s with
  | nil => exact absurd rfl hne
  | cons c rest => simp [reSearch, hm]

/-- C5: a string made of a digit-free prefix, mandatory `major "." minor`
digit groups, an optional `"." patch` digit group and a word-character
suffix parses to exactly those components: `major`/`minor`/`patch` are the
digit-group values (patch 0 when the group is missing), the suffix sets
beta when it contains "beta" and releaseCandidate when it contains "rc"
(`unknown` being both flags false, `stable` the no-suffix flags `none`). -/
theorem C5_parse_structured (p d1 d2 suf : List Char) (d3opt : Option (List Char))
    (hp : ∀ c ∈ p, dchar c = false)
    (h1n : d1 ≠ []) (h1d : ∀ c ∈ d1, dchar c = true)
    (h2n : d2 ≠ []) (h2d : ∀ c ∈ d2, dchar c = true)
    (h3 : ∀ d3, d3opt = some d3 → d3 ≠ [] ∧ ∀ c ∈ d3, dchar c = true)
    (hs : ∀ c ∈ suf, wchar c = true)
    (hsd : ∀ c, suf.head? = some c → dchar c = false) :
    parse_version (String.mk (p ++ (d1 ++ ('.' :: (d2 ++ (midOf d3opt ++ suf))))))
      = some ⟨String.mk (d1 ++ ('.' :: (d2 ++ (midOf d3opt ++ suf)))),
          natOfDigits d1, natOfDigits d2, patchOf d3opt,
          (if suf.isEmpty then none else some (containsSub ('b' :: 'e' :: 't' :: 'a' :: []) suf)),
          (if suf.isEmpty then none else some (containsSub ('r' :: 'c' :: []) suf))⟩ := by
  have hm := matchAt_shape d1 d2 suf d3opt h1n h1d h2n h2d h3 hs hsd
  have hne : d1 ++ ('.' :: (d2 ++ (midOf d3opt ++ suf))) ≠ [] := by
    cases d1 with
    | nil => exact absurd rfl h1n
    | cons a t => simp
  have hr := reSearch_of_matchAt _ _ hne hm
  have hdata : (String.mk (p ++ (d1 ++ ('.' :: (d2 ++ (midOf d3opt ++ suf)))))).data
      = p ++ (d1 ++ ('.' :: (d2 ++ (midOf d3opt ++ suf)))) := rfl
  unfold parse_version
  rw [hdata, reSearch_append_skip p _ hp, hr]
  cases d3opt with
  | none =>
    cases suf with
    | nil => simp [patchOf]
    | cons c t => simp [patchOf]
  | some d3 =>
    cases suf with
    | nil => simp [patchOf]
    | cons c t => simp [patchOf]

/-- C5 (witness): the spec's two examples, through the structured theorem. -/
theorem C5_parse_structured_witness :
    parse_version "go1.21.3" = some ⟨"1.21.3", 1, 21, 3, none, none⟩
    ∧ parse_version "1.22rc1" = some ⟨"1.22rc1", 1, 22, 0, some false, some true⟩ := by
  constructor
  · have h := C5_parse_structured ['g', 'o'] ['1'] ['2', '1'] [] (some ['3'])
      (by decide) (by decide) (by decide) (by decide) (by decide)
      (by intro d3 hd3; cases hd3; exact ⟨by decide, by decide⟩)
      (by intro c hc; exact absurd hc (by simp))
      (by intro c hc; exact absurd hc (by simp))
    exact h
  · have h := C5_parse_structured [] ['1'] ['2', '2'] ['r', 'c', '1'] none
      (by intro c hc; exact absurd hc (by simp))
      (by decide) (by decide) (by decide) (by decide)
      (by intro d3 hd3; cases hd3)
      (by decide)
      (by intro c hc; rw [List.head?_cons] at hc; injection hc with h; subst h; decide)
    exact h

/-- The per-entry acceptance test of the install-target scan, read off the
source: an entry is taken when it is not a beta/releaseCandidate, or
unconditionally when previews are allowed (unparseable entries raise before
the test, so their predicate value is never reached). -/
def nonPreviewOr (allow : Bool) (r : String) : Bool :=
  match parse_version r with
  | some i => allow || !(isPreview i)
  | none => true

lemma get_go_release_scan_eq (allow : Bool) :
    ∀ l : List String, (∀ r ∈ l, (parse_version r).isSome) →
      get_go_release_scan allow l = Except.ok (l.find? (nonPreviewOr allow))
  | [], _ => rfl
  | v :: rest, h => by
    obtain ⟨info, hinfo⟩ := Option.isSome_iff_exists.mp (h v (List.mem_cons_self v rest))
    have ih := get_go_release_scan_eq allow rest (fun r hr => h r (List.mem_cons_of_mem v hr))
    have hpred : nonPreviewOr allow v = (allow || !(isPreview info)) := by
      unfold nonPreviewOr
      rw [hinfo]
    unfold get_go_release_scan
    rw [hinfo]
    cases hprev : isPreview info with
    | true =>
      cases allow with
      | true =>
        have hpv : nonPreviewOr true v = true := by rw [hpred, hprev]; rfl
        rw [List.find?_cons_of_pos _ hpv]
        simp [hprev]
      | false =>
        have hpv : nonPreviewOr false v = false := by rw [hpred, hprev]; rfl
        rw [List.find?_cons_of_neg _ (by rw [hpv]; exact Bool.false_ne_true)]
        simp [hprev, ih]
    | false =>
      have hpv : nonPreviewOr allow v = true := by rw [hpred, hprev]; simp
      rw [List.find?_cons_of_pos _ hpv]
      simp [hprev]

/-- C8 (counterexample): with previews disallowed the scan does not skip a
non-stable entry — the unknown-channel tag `1.2.3x` is returned even though
its channel is not stable — and an unparseable entry makes the scan raise
`TypeError` rather than return anything. -/
theorem C8_counterexample :
    parse_version "1.2.3x" = some ⟨"1.2.3x", 1, 2, 3, some false, some false⟩
    ∧ channelOf ⟨"1.2.3x", 1, 2, 3, some false, some false⟩ = Channel.unknown
    ∧ get_go_release ["1.2.3x"] false = Except.ok (some "1.2.3x")
    ∧ get_go_release ["zzz"] true = Except.error PyError.typeError :=
  ⟨by decide, by decide, by decide, by decide⟩

/-- C8 (amended): on a release list whose entries all parse, the install
target is the first entry, scanning most-recent to least-recent, that is not
a beta/releaseCandidate (stable or unknown-suffixed alike), or the first
entry of any channel when `allowPreview`; the empty list yields none. -/
theorem C8_install_target (releases : List String) (allow : Bool)
    (h : ∀ r ∈ releases, (parse_version r).isSome) :
    get_go_release releases allow = Except.ok (releases.reverse.find? (nonPreviewOr allow)) := by
  cases releases with
  | nil => rfl
  | cons a t =>
    have he : ((a :: t) : List String).isEmpty = false := rfl
    unfold get_go_release
    rw [he, if_neg Bool.false_ne_true]
    exact get_go_release_scan_eq allow (a :: t).reverse
      (fun r hr => h r (List.mem_reverse.mp hr))

/-- C8 (witness): the amended selection at a concrete list — with previews
disallowed the rc head of the reversed scan is skipped. -/
theorem C8_install_target_witness :
    get_go_release ["go1.20.0", "go1.21.0", "go1.22rc1"] false
      = Except.ok ((["go1.20.0", "go1.21.0", "go1.22rc1"] : List String).reverse.find?
          (nonPreviewOr false)) :=
  C8_install_target _ _ (by decide)

lemma get_update_scan_cons_err {installed v : String} {allow : Bool} {e : PyError}
    {rest : List String} (hsv : should_update installed v allow = Except.error e) :
    get_update_scan installed allow (v :: rest) = Except.error e := by
  unfold get_update_scan
  rw [hsv]

lemma get_update_scan_cons_true {installed v : String} {allow : Bool}
    {rest : List String} (hsv : should_update installed v allow = Except.ok true) :
    get_update_scan installed allow (v :: rest) = Except.ok (some v) := by
  unfold get_update_scan
  rw [hsv]

lemma get_update_scan_cons_false {installed v : String} {allow : Bool}
    {rest : List String} (hsv : should_update installed v allow = Except.ok false) :
    get_update_scan installed allow (v :: rest) = get_update_scan installed allow rest := by
  conv_lhs => unfold get_update_scan
  rw [hsv]

lemma get_update_scan_spec (installed : String) (allow : Bool) :
    ∀ (l : List String) (c : String),
      get_update_scan installed allow l = Except.ok (some c) →
      ∃ pre post, l = pre ++ c :: post
        ∧ (∀ d ∈ pre, should_update installed d allow = Except.ok false)
        ∧ should_update installed c allow = Except.ok true
  | [], c, h => by
    exact absurd (Option.noConfusion (Except.ok.inj h)) id
  | v :: rest, c, h => by
    cases hsv : should_update installed v allow with
    | error e =>
      rw [get_update_scan_cons_err hsv] at h
      exact Except.noConfusion h
    | ok b =>
      cases b with
      | true =>
        rw [get_update_scan_cons_true hsv] at h
        have hv : v = c := Option.some.inj (Except.ok.inj h)
        subst hv
        exact ⟨[], rest, rfl, by intro d hd; exact absurd hd (List.not_mem_nil d), hsv⟩
      | false =>
        rw [get_update_scan_cons_false hsv] at h
        obtain ⟨pre, post, hl, hpre, hc⟩ := get_update_scan_spec installed allow rest c h
        refine ⟨v :: pre, post, by rw [hl, List.cons_append], ?_, hc⟩
        intro d hd
        rcases List.mem_cons.mp hd with h1 | h2
        · rw [h1]
          exact hsv
        · exact hpre d h2

/-- C3: whenever the update selection returns a version, the installed tag
occurs in the list at its first index `i`, the returned version is one of
the candidates strictly after position `i`, the update decider approves it,
and every candidate scanned before it (those later in the list, since the
scan runs most-recent to least-recent) was rejected by the decider. -/
theorem C3_update_selection (installed : String) (releases : List String) (allow : Bool)
    (c : String) (out : List String)
    (h : get_update_version installed releases allow = Except.ok (some c, out)) :
    ∃ i pre post, releases.findIdx? (fun r => r == installed) = some i
      ∧ (releases.drop (i + 1)).reverse = pre ++ c :: post
      ∧ (∀ d ∈ pre, should_update installed d allow = Except.ok false)
      ∧ should_update installed c allow = Except.ok true
      ∧ c ∈ releases.drop (i + 1) := by
  unfold get_update_version at h
  cases hidx : releases.findIdx? (fun r => r == installed) with
  | none =>
    rw [hidx] at h
    have h1 : (none : Option String) = some c := congrArg Prod.fst (Except.ok.inj h)
    exact absurd h1 (by simp)
  | some i =>
    rw [hidx] at h
    have h2 : (match get_update_scan installed allow ((releases.drop (i + 1)).reverse) with
        | Except.error e => (Except.error e : Except PyError (Option String × List String))
        | Except.ok r => Except.ok (r, [])) = Except.ok (some c, out) := h
    cases hscan : get_update_scan installed allow ((releases.drop (i + 1)).reverse) with
    | error e =>
      rw [hscan] at h2
      exact Except.noConfusion h2
    | ok r =>
      rw [hscan] at h2
      have hr : r = some c := congrArg Prod.fst (Except.ok.inj h2)
      rw [hr] at hscan
      obtain ⟨pre, post, hl, hpre, hc⟩ := get_update_scan_spec installed allow _ c hscan
      refine ⟨i, pre, post, rfl, hl, hpre, hc, ?_⟩
      have hmem : c ∈ (releases.drop (i + 1)).reverse := by
        rw [hl]
        exact List.mem_append_right _ (List.mem_cons_self _ _)
      exact List.mem_reverse.mp hmem

/-- C3 (witness): the spec's example — installed `1.21.0`, previews off —
selects `1.21.1` and the selection decomposes as the theorem states. -/
theorem C3_update_selection_witness :
    get_update_version "1.21.0" ["1.20.0", "1.21.0", "1.21.1", "1.22beta1"] false
      = Except.ok (some "1.21.1", [])
    ∧ ∃ i pre post,
        (["1.20.0", "1.21.0", "1.21.1", "1.22beta1"] : List String).findIdx?
            (fun r => r == "1.21.0") = some i
        ∧ ((["1.20.0", "1.21.0", "1.21.1", "1.22beta1"] : List String).drop (i + 1)).reverse
            = pre ++ "1.21.1" :: post
        ∧ (∀ d ∈ pre, should_update "1.21.0" d false = Except.ok false)
        ∧ should_update "1.21.0" "1.21.1" false = Except.ok true
        ∧ "1.21.1" ∈ (["1.20.0", "1.21.0", "1.21.1", "1.22beta1"] : List String).drop (i + 1) :=
  ⟨by decide,
   C3_update_selection "1.21.0" ["1.20.0", "1.21.0", "1.21.1", "1.22beta1"] false "1.21.1" []
     (by decide)⟩

/-- C6 (counterexample): the NotFound outcome (installed tag absent from the
list) and the AlreadyCurrent outcome (tag found, nothing newer qualifies)
return the same result value — `None` — distinguishable only by a printed
diagnostic line, not by the value the caller receives. -/
theorem C6_counterexample :
    get_update_version "go1.9" ["go1.2.3"] false
      = Except.ok (none, ["Error interpreting go version scheme"])
    ∧ get_update_version "go1.2.3" ["go1.2.3"] false = Except.ok (none, [])
    ∧ Except.map Prod.fst (get_update_version "go1.9" ["go1.2.3"] false)
      = Except.map Prod.fst (get_update_version "go1.2.3" ["go1.2.3"] false) :=
  ⟨by decide, by decide, by decide⟩

/-- C6 (amended): when the installed tag does not occur in the release list,
`releases.index` raises `ValueError`, the handler prints
`Error interpreting go version scheme`, and the function returns the same
absence value (`None`) that the already-current outcome produces — the two
outcomes differ only in the printed line. -/
theorem C6_not_found_result (installed : String) (releases : List String) (allow : Bool)
    (h : releases.findIdx? (fun r => r == installed) = none) :
    get_update_version installed releases allow
      = Except.ok (none, ["Error interpreting go version scheme"]) := by
  unfold get_update_version
  rw [h]

/-- C6 (witness): the amended statement at a concrete absent tag. -/
theorem C6_not_found_result_witness :
    get_update_version "go1.30.0" ["go1.2.3", "go1.3.0"] true
      = Except.ok (none, ["Error interpreting go version scheme"]) :=
  C6_not_found_result _ _ _ (by decide)

/-- C9: the artifact name builder succeeds exactly when both the machine
string has an `archMap` entry and the lowered system string has an
`extensionMap` entry; a missing entry is a raised `KeyError` (the explicit
UnsupportedPlatform failure), never a silent default. -/
theorem C9_artifact_name (system_raw machine ver : String) :
    (∃ name, build_release_file_name system_raw machine ver = Except.ok name)
      ↔ ((archMap.lookup machine).isSome
          ∧ (extensionMap.lookup (pyLower system_raw)).isSome) := by
  cases h1 : archMap.lookup machine with
  | none =>
    refine iff_of_false ?_ (by simp [h1])
    rintro ⟨name, hn⟩
    unfold build_release_file_name dictGet at hn
    rw [h1] at hn
    exact Except.noConfusion hn
  | some arch =>
    cases h2 : extensionMap.lookup (pyLower system_raw) with
    | none =>
      refine iff_of_false ?_ (by simp [h1, h2])
      rintro ⟨name, hn⟩
      unfold build_release_file_name dictGet at hn
      rw [h1, h2] at hn
      exact Except.noConfusion hn
    | some extension =>
      refine iff_of_true
        ⟨(if List.isPrefixOf ('g' :: 'o' :: []) ver.data then ver else "go" ++ ver)
          ++ "." ++ pyLower system_raw ++ "-" ++ arch ++ extension, ?_⟩
        (by simp [h1, h2])
      unfold build_release_file_name dictGet
      rw [h1, h2]

/-- C9 (witness): the spec's example artifact name, and explicit `KeyError`
failures for an unmapped architecture and an unmapped operating system. -/
theorem C9_artifact_name_witness :
    ((∃ name, build_release_file_name "linux" "x86_64" "1.21.0" = Except.ok name)
      ↔ ((archMap.lookup "x86_64").isSome ∧ (extensionMap.lookup (pyLower "linux")).isSome))
    ∧ build_release_file_name "linux" "x86_64" "1.21.0"
        = Except.ok "go1.21.0.linux-amd64.tar.gz"
    ∧ build_release_file_name "linux" "riscv64" "1.21.0"
        = Except.error (PyError.keyError "riscv64")
    ∧ build_release_file_name "Haiku" "x86_64" "1.21.0"
        = Except.error (PyError.keyError "haiku") :=
  ⟨C9_artifact_name _ _ _, by decide, by decide, by decide⟩

example : parse_version "go1.21.3" =
    some ⟨"1.21.3", 1, 21, 3, none, none⟩ := by decide

example : parse_version "1.22rc1" =
    some ⟨"1.22rc1", 1, 22, 0, some false, some true⟩ := by decide

example : parse_version "abc" = none := by decide

example : should_update "1.21.0" "1.21.1" false = Except.ok true := by decide

example : should_update "1.21.0" "1.22beta1" false = Except.ok false := by decide

example : should_update "1.21.0" "1.22beta1" true = Except.ok true := by decide

example : should_update "1.21.1" "1.21.0" false = Except.ok false := by decide

example : get_update_version "1.21.0" ["1.20.0", "1.21.0", "1.21.1", "1.22beta1"] false
    = Except.ok (some "1.21.1", []) := by decide

example : build_release_file_name "linux" "x86_64" "1.21.0"
    = Except.ok "go1.21.0.linux-amd64.tar.gz" := by decide
